import Mathlib

/-!
Shallow embedding of the batch processing engine of node-simple-batcher
(the functions processBatches and processPaginatedBatches of
src/batcher.ts, whose text is embedded in src/README.md).

Modelling conventions:
* JavaScript arrays become lists; thrown values become JsVal; a value that
  is an Error instance is JsVal.errObj, any other thrown value is
  JsVal.raw carrying its String(...) rendering.
* The p-limit concurrency gate is an external dependency (not part of this
  repository); it admits queued tasks in FIFO order, and all counter
  mutation in the source happens between await points on one logical
  thread, so the embedding replays item completions in submission order.
  Every callback invocation is recorded as an Event, in invocation order.
* new Date().toISOString() is modelled by a Nat clock that yields a fresh
  value at each snapshot replacement.
* The source loops can fail to terminate (for-loop with batchSize = 0, or
  a fetchPage that keeps growing totalPages), so both drivers take fuel,
  one unit per loop iteration; none means the loop did not finish within
  the given fuel.  A fetchPage exception propagates out of
  processPaginatedBatches, modelled by Except.error in the result.
-/

namespace Batcher

/-- Model of a JavaScript value that can be thrown or rejected with:
either an Error instance carrying a message, or any other value carrying
its String(...) rendering. -/
inductive JsVal where
  | errObj (msg : String)
  | raw (str : String)
  deriving DecidableEq, Repr

/-- True exactly on Error instances (the instanceof Error test). -/
def JsVal.isErrObj : JsVal → Bool
  | .errObj _ => true
  | .raw _ => false

/-- Model of the expression
error instanceof Error ? error : new Error(String(error))
used in the catch branches of both drivers. -/
def toError : JsVal → JsVal
  | .errObj m => .errObj m
  | .raw s => .errObj s

/-- The open State object threaded through a run.  Reserved fields are
explicit; unreserved caller-defined fields are collected in ext and are
never touched by the engine (object spread copies them). -/
structure State where
  totalProcessed : Option Nat := none
  totalFailed : Option Nat := none
  lastUpdated : Option Nat := none
  currentPage : Option Nat := none
  totalPages : Option Nat := none
  ext : List (String × String) := []
  deriving DecidableEq, Repr

/-- Model of the JavaScript expression v || d for an optional numeric
field v: both undefined and 0 are falsy, so they select the default. -/
def jsOr (v : Option Nat) (d : Nat) : Nat :=
  match v with
  | none => d
  | some 0 => d
  | some n => n

/-- One recorded callback invocation.  Arguments follow the source call
sites (items and results themselves are not recorded). -/
inductive Event where
  | batchStart (batchNumber totalBatches : Nat) (state : State)
  | batchComplete (batchNumber totalBatches totalProcessed totalFailed : Nat) (state : State)
  | itemSuccess (totalProcessed : Nat) (state : State)
  | itemError (error : JsVal) (totalFailed : Nat) (state : State)
  | stateUpdate (state : State)
  | pageStart (page totalPages : Nat) (state : State)
  | pageComplete (page totalPages pageProcessed totalProcessed : Nat) (state : State)
  deriving DecidableEq, Repr

/-- The state argument carried by an event (every callback receives the
then-current snapshot). -/
def Event.stateOf : Event → State
  | .batchStart _ _ s => s
  | .batchComplete _ _ _ _ s => s
  | .itemSuccess _ s => s
  | .itemError _ _ s => s
  | .stateUpdate s => s
  | .pageStart _ _ s => s
  | .pageComplete _ _ _ _ s => s

/-- The record returned by both drivers. -/
structure BatchResult where
  processed : Nat
  failed : Nat
  state : State
  deriving DecidableEq, Repr

/-- Options of processBatches with the source defaults.  concurrencyLimit
is kept for fidelity; it is handed to the external p-limit gate and does
not change the linearized completion order. -/
structure BatchOptions where
  batchSize : Nat := 20
  concurrencyLimit : Nat := 10
  stateUpdateInterval : Nat := 5
  initialState : State := {}
  deriving Repr

/-- Options of processPaginatedBatches with the source defaults. -/
structure PaginatedBatchOptions where
  initialPage : Nat := 1
  concurrencyLimit : Nat := 10
  stateUpdateInterval : Nat := 5
  initialState : State := {}
  deriving Repr

/-- A fetched page: items, the alternate field name results, and an
optional totalPages. -/
structure PageData (T : Type) where
  items : Option (List T) := none
  results : Option (List T) := none
  totalPages : Option Nat := none
  deriving Repr

/-- Model of (pageData.items || pageData.results || []).  An array is
always truthy in JavaScript, even when empty, so a present empty items
array wins over results. -/
def pageItems {T : Type} (pd : PageData T) : List T :=
  match pd.items with
  | some l => l
  | none =>
    match pd.results with
    | some l => l
    | none => []

/-- The mutable locals shared by the per-item closures of one batch or
one page: totalProcessed, totalFailed, the per-batch success counter
(batchProcessed in processBatches, pageProcessed in
processPaginatedBatches), currentState, and the clock. -/
structure ItemCtx where
  totalProcessed : Nat
  totalFailed : Nat
  groupProcessed : Nat
  currentState : State
  clock : Nat
  deriving Repr

/-- One item task body, shared verbatim by both drivers: try process;
on success bump the counters, fire onItemSuccess, and when the per-batch
success counter hits the stateUpdateInterval cadence or the batch length,
replace the snapshot and fire onStateUpdate; on failure bump totalFailed
and fire onItemError with the wrapped error. -/
def runItem {T R : Type} (pf : T → Nat → State → Except JsVal R)
    (interval listLen : Nat) (item : T) (idx : Nat) (c : ItemCtx) :
    ItemCtx × List Event :=
  match pf item idx c.currentState with
  | .ok _ =>
    let totalProcessed := c.totalProcessed + 1
    let groupProcessed := c.groupProcessed + 1
    let evSuccess := Event.itemSuccess totalProcessed c.currentState
    if groupProcessed % interval == 0 || groupProcessed == listLen then
      let st : State := { c.currentState with
        totalProcessed := some totalProcessed,
        totalFailed := some c.totalFailed,
        lastUpdated := some c.clock }
      ({ c with
          totalProcessed := totalProcessed, groupProcessed := groupProcessed,
          currentState := st, clock := c.clock + 1 },
       [evSuccess, Event.stateUpdate st])
    else
      ({ c with totalProcessed := totalProcessed, groupProcessed := groupProcessed },
       [evSuccess])
  | .error e =>
    let totalFailed := c.totalFailed + 1
    ({ c with totalFailed := totalFailed },
     [Event.itemError (toError e) totalFailed c.currentState])

/-- All items of one batch or page, in admission (= submission) order;
idx is the index within the batch passed to process. -/
def runItems {T R : Type} (pf : T → Nat → State → Except JsVal R)
    (interval listLen : Nat) : List T → Nat → ItemCtx → ItemCtx × List Event
  | [], _, c => (c, [])
  | item :: rest, idx, c =>
    let step := runItem pf interval listLen item idx c
    let tail := runItems pf interval listLen rest (idx + 1) step.1
    (tail.1, step.2 ++ tail.2)

/-- The batch loop of processBatches: for (i = 0; i < items.length;
i += batchSize).  One unit of fuel per iteration; the arguments after
fuel are i, totalProcessed, totalFailed, currentState, clock. -/
def batchLoop {T R : Type} (pf : T → Nat → State → Except JsVal R)
    (items : List T) (batchSize interval totalBatches : Nat) :
    Nat → Nat → Nat → Nat → State → Nat → Option (BatchResult × List Event)
  | 0, _, _, _, _, _ => none
  | fuel + 1, i, tp, tf, cs, clock =>
    if i < items.length then
      let batch := (items.drop i).take batchSize
      let batchNumber := i / batchSize + 1
      let evStart := Event.batchStart batchNumber totalBatches cs
      let run := runItems pf interval batch.length batch 0
        ⟨tp, tf, 0, cs, clock⟩
      let c := run.1
      let cs2 : State := { c.currentState with
        totalProcessed := some c.totalProcessed,
        totalFailed := some c.totalFailed,
        lastUpdated := some c.clock }
      match batchLoop pf items batchSize interval totalBatches fuel
          (i + batchSize) c.totalProcessed c.totalFailed cs2 (c.clock + 1) with
      | none => none
      | some (res, evs) =>
        some (res, evStart :: run.2
          ++ [Event.stateUpdate cs2,
              Event.batchComplete batchNumber totalBatches c.totalProcessed c.totalFailed cs2]
          ++ evs)
    else
      some (⟨tp, tf, cs⟩, [])

/-- processBatches.  Seeds the counters with initialState.totalProcessed
|| 0 and initialState.totalFailed || 0, copies initialState into
currentState, computes totalBatches = ceil(items.length / batchSize) and
runs the batch loop.  With batchSize = 0 and a nonempty items array the
source loop never advances i; the embedding then returns none for every
fuel (in JavaScript totalBatches is Infinity there, a value only ever
passed to callbacks of the non-terminating run). -/
def processBatches {T R : Type} (fuel : Nat) (items : List T)
    (pf : T → Nat → State → Except JsVal R) (options : BatchOptions) :
    Option (BatchResult × List Event) :=
  let totalProcessed := jsOr options.initialState.totalProcessed 0
  let totalFailed := jsOr options.initialState.totalFailed 0
  let currentState : State := options.initialState
  let totalBatches := (items.length + options.batchSize - 1) / options.batchSize
  batchLoop pf items options.batchSize options.stateUpdateInterval totalBatches
    fuel 0 totalProcessed totalFailed currentState 0

/-- Model of
if (pageData.totalPages && pageData.totalPages !== totalPages):
a fetched totalPages that is absent or 0 is falsy and triggers no update;
otherwise an update replaces the snapshot and fires onStateUpdate. -/
def totalPagesUpdate (fetched : Option Nat) (totalPages : Nat) (cs : State) :
    Nat × State × List Event :=
  match fetched with
  | some n =>
    if n != 0 && n != totalPages then
      let cs2 : State := { cs with totalPages := some n }
      (n, cs2, [Event.stateUpdate cs2])
    else
      (totalPages, cs, [])
  | none => (totalPages, cs, [])

/-- The page loop of processPaginatedBatches: while (currentPage <=
totalPages).  One unit of fuel per iteration; the arguments after fuel
are currentPage, totalPages, totalProcessed, totalFailed, currentState,
clock.  A fetchPage error propagates as Except.error and the run returns
no result. -/
def pageLoop {T R : Type} (fetchPage : Nat → State → Except JsVal (PageData T))
    (pf : T → Nat → State → Except JsVal R) (interval : Nat) :
    Nat → Nat → Nat → Nat → Nat → State → Nat →
    Option (Except JsVal (BatchResult × List Event))
  | 0, _, _, _, _, _, _ => none
  | fuel + 1, currentPage, totalPages, tp, tf, cs, clock =>
    if currentPage ≤ totalPages then
      let evStart := Event.pageStart currentPage totalPages cs
      match fetchPage currentPage cs with
      | .error e => some (.error e)
      | .ok pd =>
        let upd := totalPagesUpdate pd.totalPages totalPages cs
        let totalPages2 := upd.1
        let cs1 := upd.2.1
        let items := pageItems pd
        if items.length == 0 then
          let cs2 : State := { cs1 with currentPage := some (currentPage + 1) }
          match pageLoop fetchPage pf interval fuel
              (currentPage + 1) totalPages2 tp tf cs2 clock with
          | none => none
          | some (.error e) => some (.error e)
          | some (.ok (res, evs)) =>
            some (.ok (res, evStart :: upd.2.2 ++ [Event.stateUpdate cs2] ++ evs))
        else
          let run := runItems pf interval items.length items 0 ⟨tp, tf, 0, cs1, clock⟩
          let c := run.1
          let cs2 : State := { c.currentState with
            currentPage := some (currentPage + 1),
            totalProcessed := some c.totalProcessed,
            totalFailed := some c.totalFailed,
            lastUpdated := some c.clock }
          match pageLoop fetchPage pf interval fuel
              (currentPage + 1) totalPages2 c.totalProcessed c.totalFailed cs2 (c.clock + 1) with
          | none => none
          | some (.error e) => some (.error e)
          | some (.ok (res, evs)) =>
            some (.ok (res, evStart :: upd.2.2 ++ run.2
              ++ [Event.stateUpdate cs2,
                  Event.pageComplete currentPage totalPages2 c.groupProcessed c.totalProcessed cs2]
              ++ evs))
    else
      some (.ok (⟨tp, tf, cs⟩, []))

/-- processPaginatedBatches.  Seeds currentPage from
initialState.currentPage || initialPage, totalPages from
initialState.totalPages || 1, the counters as in processBatches, and
currentState from the spread of initialState with those four fields, then
runs the page loop.  The pageComplete event of a page records
currentPage + 1 - 1 = currentPage as its page number. -/
def processPaginatedBatches {T R : Type} (fuel : Nat)
    (fetchPage : Nat → State → Except JsVal (PageData T))
    (pf : T → Nat → State → Except JsVal R) (options : PaginatedBatchOptions) :
    Option (Except JsVal (BatchResult × List Event)) :=
  let currentPage := jsOr options.initialState.currentPage options.initialPage
  let totalPages := jsOr options.initialState.totalPages 1
  let totalProcessed := jsOr options.initialState.totalProcessed 0
  let totalFailed := jsOr options.initialState.totalFailed 0
  let currentState : State := { options.initialState with
    currentPage := some currentPage,
    totalPages := some totalPages,
    totalProcessed := some totalProcessed,
    totalFailed := some totalFailed }
  pageLoop fetchPage pf options.stateUpdateInterval fuel
    currentPage totalPages totalProcessed totalFailed currentState 0

/-! Trace observations used by the verified properties. -/

/-- True on an onItemSuccess invocation. -/
def Event.isSuccess : Event → Bool
  | .itemSuccess _ _ => true
  | _ => false

/-- True on an onItemError invocation. -/
def Event.isError : Event → Bool
  | .itemError _ _ _ => true
  | _ => false

/-- True on an onPageStart invocation. -/
def Event.isPageStart : Event → Bool
  | .pageStart _ _ _ => true
  | _ => false

/-- True on an onPageComplete invocation. -/
def Event.isPageComplete : Event → Bool
  | .pageComplete _ _ _ _ _ => true
  | _ => false

/-- Number of onItemSuccess invocations in a trace. -/
def countSuccesses (evs : List Event) : Nat :=
  evs.countP Event.isSuccess

/-- Number of onItemError invocations in a trace. -/
def countFailures (evs : List Event) : Nat :=
  evs.countP Event.isError

/-- Number of item-completion events, success or error, in a trace. -/
def completions (evs : List Event) : Nat :=
  countSuccesses evs + countFailures evs

/-- The page number announced by an onPageStart invocation. -/
def pageStartPage : Event → Option Nat
  | .pageStart p _ _ => some p
  | _ => none

/-- Result component of an array-driver run, when it finished. -/
def runResult (o : Option (BatchResult × List Event)) : Option BatchResult :=
  o.map Prod.fst

/-- Event trace of an array-driver run, empty when it did not finish. -/
def runEvents (o : Option (BatchResult × List Event)) : List Event :=
  match o with
  | some (_, evs) => evs
  | none => []

/-- Result component of a paginated run that finished without a
fetchPage error. -/
def pagedResult (o : Option (Except JsVal (BatchResult × List Event))) :
    Option BatchResult :=
  match o with
  | some (.ok (res, _)) => some res
  | _ => none

/-- Event trace of a paginated run that finished without a fetchPage
error, empty otherwise. -/
def pagedEvents (o : Option (Except JsVal (BatchResult × List Event))) :
    List Event :=
  match o with
  | some (.ok (_, evs)) => evs
  | _ => []

/-- True when a paginated run finished without a fetchPage error. -/
def pagedIsOk (o : Option (Except JsVal (BatchResult × List Event))) : Bool :=
  match o with
  | some (.ok _) => true
  | _ => false

/-- True when the optional event is an onItemSuccess or onItemError
invocation. -/
def isItemEventO : Option Event → Bool
  | some (.itemSuccess _ _) => true
  | some (.itemError _ _ _) => true
  | _ => false

/-- Non-termination of the array driver at an input: no amount of fuel
makes the batch loop of processBatches return. -/
def processBatchesDiverges {T R : Type} (items : List T)
    (pf : T → Nat → State → Except JsVal R) (options : BatchOptions) : Prop :=
  ∀ fuel, processBatches fuel items pf options = none

/-! Counting lemmas for traces. -/

theorem countSuccesses_append (a b : List Event) :
    countSuccesses (a ++ b) = countSuccesses a + countSuccesses b := by
  simp [countSuccesses, List.countP_append]

theorem countFailures_append (a b : List Event) :
    countFailures (a ++ b) = countFailures a + countFailures b := by
  simp [countFailures, List.countP_append]

/-- Counter bookkeeping of one item task: the counters grow by the
matching event counts and the task records exactly one completion
event. -/
theorem runItem_counts {T R : Type} (pf : T → Nat → State → Except JsVal R)
    (interval listLen : Nat) (x : T) (idx : Nat) (c : ItemCtx) :
    (runItem pf interval listLen x idx c).1.totalProcessed
      = c.totalProcessed + countSuccesses (runItem pf interval listLen x idx c).2
    ∧ (runItem pf interval listLen x idx c).1.totalFailed
      = c.totalFailed + countFailures (runItem pf interval listLen x idx c).2
    ∧ (runItem pf interval listLen x idx c).1.groupProcessed
      = c.groupProcessed + countSuccesses (runItem pf interval listLen x idx c).2
    ∧ countSuccesses (runItem pf interval listLen x idx c).2
        + countFailures (runItem pf interval listLen x idx c).2 = 1 := by
  unfold runItem
  rcases hpf : pf x idx c.currentState with e | r
  · simp [hpf, countSuccesses, countFailures, List.countP_cons,
      Event.isSuccess, Event.isError]
  · simp only [hpf]
    split <;>
      simp [countSuccesses, countFailures, List.countP_cons,
        Event.isSuccess, Event.isError]

/-- Counter bookkeeping of one batch or page worth of items: the two
running totals each grow by the matching number of item events, the
per-batch success counter grows by the number of successes, and each item
contributes exactly one completion event. -/
theorem runItems_counts {T R : Type} (pf : T → Nat → State → Except JsVal R)
    (interval listLen : Nat) (l : List T) (idx : Nat) (c : ItemCtx) :
    (runItems pf interval listLen l idx c).1.totalProcessed
      = c.totalProcessed + countSuccesses (runItems pf interval listLen l idx c).2
    ∧ (runItems pf interval listLen l idx c).1.totalFailed
      = c.totalFailed + countFailures (runItems pf interval listLen l idx c).2
    ∧ (runItems pf interval listLen l idx c).1.groupProcessed
      = c.groupProcessed + countSuccesses (runItems pf interval listLen l idx c).2
    ∧ countSuccesses (runItems pf interval listLen l idx c).2
        + countFailures (runItems pf interval listLen l idx c).2 = l.length := by
  induction l generalizing idx c with
  | nil => simp [runItems, countSuccesses, countFailures]
  | cons x rest ih =>
    obtain ⟨h1, h2, h3, h4⟩ := ih (idx + 1) (runItem pf interval listLen x idx c).1
    obtain ⟨s1, s2, s3, s4⟩ := runItem_counts pf interval listLen x idx c
    simp only [runItems, countSuccesses_append, countFailures_append, List.length_cons]
    refine ⟨?_, ?_, ?_, ?_⟩ <;> omega

/-- True when every state handed to a callback in the trace carries
exactly the unreserved fields x. -/
def stateExtOk (x : List (String × String)) (evs : List Event) : Bool :=
  evs.all fun e => decide (e.stateOf.ext = x)

/-- True when every onItemError invocation in the trace received an Error
instance. -/
def errorsWrapped (evs : List Event) : Bool :=
  evs.all fun e =>
    match e with
    | .itemError er _ _ => er.isErrObj
    | _ => true

theorem stateExtOk_append (x : List (String × String)) (a b : List Event) :
    stateExtOk x (a ++ b) = (stateExtOk x a && stateExtOk x b) := by
  simp [stateExtOk, List.all_append]

theorem errorsWrapped_append (a b : List Event) :
    errorsWrapped (a ++ b) = (errorsWrapped a && errorsWrapped b) := by
  simp [errorsWrapped, List.all_append]

/-- The wrapping expression always yields an Error instance. -/
theorem toError_isErrObj (v : JsVal) : (toError v).isErrObj = true := by
  cases v <;> rfl

/-- One item task neither reads nor writes the unreserved state fields:
snapshot replacement spreads the previous snapshot. -/
theorem runItem_ext {T R : Type} (pf : T → Nat → State → Except JsVal R)
    (interval listLen : Nat) (x : T) (idx : Nat) (c : ItemCtx)
    (xs : List (String × String)) (h : c.currentState.ext = xs) :
    (runItem pf interval listLen x idx c).1.currentState.ext = xs
    ∧ stateExtOk xs (runItem pf interval listLen x idx c).2 = true := by
  unfold runItem
  rcases hpf : pf x idx c.currentState with e | r
  · simp [hpf, stateExtOk, Event.stateOf, h]
  · simp only [hpf]
    split <;> simp [stateExtOk, Event.stateOf, h]

/-- The unreserved state fields survive a whole batch or page of item
tasks, in the final snapshot and in every callback argument. -/
theorem runItems_ext {T R : Type} (pf : T → Nat → State → Except JsVal R)
    (interval listLen : Nat) (l : List T) (idx : Nat) (c : ItemCtx)
    (xs : List (String × String)) (h : c.currentState.ext = xs) :
    (runItems pf interval listLen l idx c).1.currentState.ext = xs
    ∧ stateExtOk xs (runItems pf interval listLen l idx c).2 = true := by
  induction l generalizing idx c with
  | nil => simpa [runItems, stateExtOk] using h
  | cons y rest ih =>
    obtain ⟨h1, h2⟩ := runItem_ext pf interval listLen y idx c xs h
    obtain ⟨h3, h4⟩ := ih (idx + 1) (runItem pf interval listLen y idx c).1 h1
    simp [runItems, stateExtOk_append, h2, h3, h4]

/-- Every onItemError invocation of a batch or page of item tasks
receives a wrapped Error instance. -/
theorem runItems_wrapped {T R : Type} (pf : T → Nat → State → Except JsVal R)
    (interval listLen : Nat) (l : List T) (idx : Nat) (c : ItemCtx) :
    errorsWrapped (runItems pf interval listLen l idx c).2 = true := by
  induction l generalizing idx c with
  | nil => simp [runItems, errorsWrapped]
  | cons y rest ih =>
    have h2 := ih (idx + 1) (runItem pf interval listLen y idx c).1
    have h1 : errorsWrapped (runItem pf interval listLen y idx c).2 = true := by
      unfold runItem
      rcases hpf : pf y idx c.currentState with e | r
      · simp [hpf, errorsWrapped, toError_isErrObj]
      · simp only [hpf]
        split <;> simp [errorsWrapped]
    simp [runItems, errorsWrapped_append, h1, h2]

/-- With a process function that never rejects, a batch or page of item
tasks records no onItemError invocation. -/
theorem runItems_allok {T R : Type} (pf : T → Nat → State → Except JsVal R)
    (interval listLen : Nat) (l : List T) (idx : Nat) (c : ItemCtx)
    (h : ∀ t i s, (pf t i s).isOk = true) :
    countFailures (runItems pf interval listLen l idx c).2 = 0 := by
  induction l generalizing idx c with
  | nil => simp [runItems, countFailures]
  | cons y rest ih =>
    have h2 := ih (idx + 1) (runItem pf interval listLen y idx c).1
    have h1 : countFailures (runItem pf interval listLen y idx c).2 = 0 := by
      unfold runItem
      rcases hpf : pf y idx c.currentState with e | r
      · have := h y idx c.currentState
        rw [hpf] at this
        simp [Except.isOk, Except.toBool] at this
      · simp only [hpf]
        split <;>
          simp [countFailures, List.countP_cons, Event.isError]
    simp [runItems, countFailures_append, h1, h2]

/-- True when an array-driver outcome, if it finished, has its final
state and every callback state carrying exactly the unreserved fields
x. -/
def extOk (x : List (String × String)) :
    Option (BatchResult × List Event) → Bool
  | none => true
  | some (res, evs) => decide (res.state.ext = x) && stateExtOk x evs

/-- True when a paginated outcome, if it finished without a fetchPage
error, has its final state and every callback state carrying exactly the
unreserved fields x. -/
def pagedExtOk (x : List (String × String)) :
    Option (Except JsVal (BatchResult × List Event)) → Bool
  | some (.ok (res, evs)) => decide (res.state.ext = x) && stateExtOk x evs
  | _ => true

/-- True when every onItemError invocation of a finished array-driver
outcome received an Error instance. -/
def wrappedOk : Option (BatchResult × List Event) → Bool
  | none => true
  | some (_, evs) => errorsWrapped evs

/-- True when every onItemError invocation of a paginated outcome that
finished without a fetchPage error received an Error instance. -/
def pagedWrappedOk : Option (Except JsVal (BatchResult × List Event)) → Bool
  | some (.ok (_, evs)) => errorsWrapped evs
  | _ => true

/-- Counter bookkeeping of the batch loop: whenever it finishes, each
final count equals its seed plus the matching number of item events in
the produced trace. -/
theorem batchLoop_counts {T R : Type} (pf : T → Nat → State → Except JsVal R)
    (items : List T) (batchSize interval totalBatches : Nat) :
    ∀ (fuel i tp tf : Nat) (cs : State) (clock : Nat)
      (res : BatchResult) (evs : List Event),
      batchLoop pf items batchSize interval totalBatches fuel i tp tf cs clock
        = some (res, evs) →
      res.processed = tp + countSuccesses evs ∧ res.failed = tf + countFailures evs := by
  intro fuel
  induction fuel with
  | zero => intro i tp tf cs clock res evs h; simp [batchLoop] at h
  | succ fuel ih =>
    intro i tp tf cs clock res evs h
    rw [batchLoop] at h
    split at h
    swap
    · simp only [Option.some.injEq, Prod.mk.injEq] at h
      obtain ⟨hres, hevs⟩ := h
      subst hres hevs
      simp [countSuccesses, countFailures]
    dsimp only at h
    · rcases hrec : batchLoop pf items batchSize interval totalBatches fuel
          (i + batchSize)
          (runItems pf interval ((items.drop i).take batchSize).length
            ((items.drop i).take batchSize) 0 ⟨tp, tf, 0, cs, clock⟩).1.totalProcessed
          (runItems pf interval ((items.drop i).take batchSize).length
            ((items.drop i).take batchSize) 0 ⟨tp, tf, 0, cs, clock⟩).1.totalFailed
          _ _ with _ | p
      · rw [hrec] at h; simp at h
      · rw [hrec] at h
        obtain ⟨res2, evs2⟩ := p
        obtain ⟨hp, hf⟩ := ih _ _ _ _ _ res2 evs2 hrec
        obtain ⟨c1, c2, _, _⟩ := runItems_counts pf interval
          ((items.drop i).take batchSize).length ((items.drop i).take batchSize) 0
          ⟨tp, tf, 0, cs, clock⟩
        simp only [Option.some.injEq, Prod.mk.injEq] at h
        obtain ⟨hres, hevs⟩ := h
        subst hres hevs
        constructor
        · rw [hp, c1]
          simp [countSuccesses, List.countP_cons, List.countP_append,
            Event.isSuccess]
          omega
        · rw [hf, c2]
          simp [countFailures, List.countP_cons, List.countP_append,
            Event.isError]
          omega

/-- Termination of the batch loop for positive batchSize: the index
strictly advances each iteration, so fuel bounded by the remaining item
count suffices, and the trace then contains one completion event per
remaining item. -/
theorem batchLoop_total {T R : Type} (pf : T → Nat → State → Except JsVal R)
    (items : List T) (batchSize interval totalBatches : Nat)
    (hbs : 1 ≤ batchSize) :
    ∀ (fuel i tp tf : Nat) (cs : State) (clock : Nat),
      items.length - i + 1 ≤ fuel →
      ∃ res evs,
        batchLoop pf items batchSize interval totalBatches fuel i tp tf cs clock
          = some (res, evs)
        ∧ countSuccesses evs + countFailures evs = items.length - i := by
  intro fuel
  induction fuel with
  | zero => intro i tp tf cs clock hf; omega
  | succ fuel ih =>
    intro i tp tf cs clock hf
    rw [batchLoop]
    split
    case isFalse hlt =>
      refine ⟨⟨tp, tf, cs⟩, [], rfl, ?_⟩
      simp [countSuccesses, countFailures]
      omega
    case isTrue hlt =>
      dsimp only
      obtain ⟨_, _, _, hlen⟩ := runItems_counts pf interval
        ((items.drop i).take batchSize).length ((items.drop i).take batchSize) 0
        ⟨tp, tf, 0, cs, clock⟩
      obtain ⟨res, evs, hrec, hcount⟩ := ih (i + batchSize) _ _ _ _
        (by omega)
      rw [hrec]
      refine ⟨res, _, rfl, ?_⟩
      have hbl : ((items.drop i).take batchSize).length
          = min batchSize (items.length - i) := by
        simp [List.length_take, List.length_drop]
      simp [countSuccesses, countFailures, List.countP_cons,
        List.countP_append, Event.isSuccess, Event.isError] at hcount hlen ⊢
      omega

theorem stateExtOk_cons (x : List (String × String)) (e : Event) (l : List Event) :
    stateExtOk x (e :: l) = (decide (e.stateOf.ext = x) && stateExtOk x l) := by
  simp [stateExtOk]

theorem errorsWrapped_cons (e : Event) (l : List Event) :
    errorsWrapped (e :: l)
      = ((match e with | .itemError er _ _ => er.isErrObj | _ => true)
          && errorsWrapped l) := by
  simp [errorsWrapped]

/-- The batch loop never touches the unreserved state fields: every
snapshot it builds spreads the previous one, so the final state and every
callback argument carry the seed snapshot's unreserved fields. -/
theorem batchLoop_ext {T R : Type} (pf : T → Nat → State → Except JsVal R)
    (items : List T) (batchSize interval totalBatches : Nat)
    (xs : List (String × String)) :
    ∀ (fuel i tp tf : Nat) (cs : State) (clock : Nat), cs.ext = xs →
      extOk xs (batchLoop pf items batchSize interval totalBatches fuel i tp tf cs clock)
        = true := by
  intro fuel
  induction fuel with
  | zero => intro i tp tf cs clock hcs; simp [batchLoop, extOk]
  | succ fuel ih =>
    intro i tp tf cs clock hcs
    rw [batchLoop]
    split
    case isFalse hlt => simp [extOk, stateExtOk, hcs]
    case isTrue hlt =>
      dsimp only
      obtain ⟨hext, hevs⟩ := runItems_ext pf interval
        ((items.drop i).take batchSize).length ((items.drop i).take batchSize) 0
        ⟨tp, tf, 0, cs, clock⟩ xs hcs
      generalize hrun : runItems pf interval ((items.drop i).take batchSize).length
        ((items.drop i).take batchSize) 0 ⟨tp, tf, 0, cs, clock⟩ = run at hext hevs ⊢
      obtain ⟨c, itemEvs⟩ := run
      simp only at hext hevs ⊢
      have hih := ih (i + batchSize) c.totalProcessed c.totalFailed
        { c.currentState with
          totalProcessed := some c.totalProcessed,
          totalFailed := some c.totalFailed,
          lastUpdated := some c.clock }
        (c.clock + 1) hext
      rcases hrec : batchLoop pf items batchSize interval totalBatches fuel
          (i + batchSize) c.totalProcessed c.totalFailed
          { c.currentState with
            totalProcessed := some c.totalProcessed,
            totalFailed := some c.totalFailed,
            lastUpdated := some c.clock }
          (c.clock + 1) with _ | p
      · simp [extOk]
      · obtain ⟨res, evs⟩ := p
        rw [hrec] at hih
        simp only [extOk, Bool.and_eq_true, decide_eq_true_eq] at hih
        simp [extOk, stateExtOk_cons, stateExtOk_append, Event.stateOf,
          hext, hevs, hcs, hih.1, hih.2]

/-- The batch loop only ever hands a wrapped Error instance to
onItemError. -/
theorem batchLoop_wrapped {T R : Type} (pf : T → Nat → State → Except JsVal R)
    (items : List T) (batchSize interval totalBatches : Nat) :
    ∀ (fuel i tp tf : Nat) (cs : State) (clock : Nat),
      wrappedOk (batchLoop pf items batchSize interval totalBatches fuel i tp tf cs clock)
        = true := by
  intro fuel
  induction fuel with
  | zero => intro i tp tf cs clock; simp [batchLoop, wrappedOk]
  | succ fuel ih =>
    intro i tp tf cs clock
    rw [batchLoop]
    split
    case isFalse hlt => simp [wrappedOk, errorsWrapped]
    case isTrue hlt =>
      dsimp only
      have hitems := runItems_wrapped pf interval
        ((items.drop i).take batchSize).length ((items.drop i).take batchSize) 0
        ⟨tp, tf, 0, cs, clock⟩
      generalize hrun : runItems pf interval ((items.drop i).take batchSize).length
        ((items.drop i).take batchSize) 0 ⟨tp, tf, 0, cs, clock⟩ = run at hitems ⊢
      obtain ⟨c, itemEvs⟩ := run
      simp only at hitems ⊢
      have hih := ih (i + batchSize) c.totalProcessed c.totalFailed
        { c.currentState with
          totalProcessed := some c.totalProcessed,
          totalFailed := some c.totalFailed,
          lastUpdated := some c.clock }
        (c.clock + 1)
      rcases hrec : batchLoop pf items batchSize interval totalBatches fuel
          (i + batchSize) c.totalProcessed c.totalFailed
          { c.currentState with
            totalProcessed := some c.totalProcessed,
            totalFailed := some c.totalFailed,
            lastUpdated := some c.clock }
          (c.clock + 1) with _ | p
      · simp [wrappedOk]
      · obtain ⟨res, evs⟩ := p
        rw [hrec] at hih
        simp only [wrappedOk] at hih
        simp [wrappedOk, errorsWrapped_cons, errorsWrapped_append, hitems, hih]


/-- The totalPages-update step records no item event, keeps the
unreserved fields, and hands only spread snapshots to onStateUpdate. -/
theorem totalPagesUpdate_facts (f : Option Nat) (tps : Nat) (cs : State) :
    countSuccesses (totalPagesUpdate f tps cs).2.2 = 0
    ∧ countFailures (totalPagesUpdate f tps cs).2.2 = 0
    ∧ (totalPagesUpdate f tps cs).2.1.ext = cs.ext
    ∧ stateExtOk cs.ext (totalPagesUpdate f tps cs).2.2 = true
    ∧ errorsWrapped (totalPagesUpdate f tps cs).2.2 = true := by
  rcases f with _ | n
  · simp [totalPagesUpdate, countSuccesses, countFailures, stateExtOk, errorsWrapped]
  · rcases Bool.eq_false_or_eq_true (n != 0 && n != tps) with hc | hc <;>
      simp [totalPagesUpdate, hc, countSuccesses, countFailures, stateExtOk,
        errorsWrapped, List.countP_cons, Event.isSuccess, Event.isError,
        Event.stateOf]

/-- Counter bookkeeping of the page loop: whenever it finishes without a
fetchPage error, each final count equals its seed plus the matching
number of item events in the produced trace. -/
theorem pageLoop_counts {T R : Type}
    (fetchPage : Nat → State → Except JsVal (PageData T))
    (pf : T → Nat → State → Except JsVal R) (interval : Nat) :
    ∀ (fuel cp tps tp tf : Nat) (cs : State) (clock : Nat)
      (res : BatchResult) (evs : List Event),
      pageLoop fetchPage pf interval fuel cp tps tp tf cs clock
        = some (.ok (res, evs)) →
      res.processed = tp + countSuccesses evs
        ∧ res.failed = tf + countFailures evs := by
  intro fuel
  induction fuel with
  | zero => intro cp tps tp tf cs clock res evs h; simp [pageLoop] at h
  | succ fuel ih =>
    intro cp tps tp tf cs clock res evs h
    rw [pageLoop] at h
    split at h
    case isFalse hle =>
      simp only [Option.some.injEq, Except.ok.injEq, Prod.mk.injEq] at h
      obtain ⟨hres, hevs⟩ := h
      subst hres hevs
      simp [countSuccesses, countFailures]
    case isTrue hle =>
      dsimp only at h
      split at h
      · simp at h
      case h_2 pd heq =>
        obtain ⟨u1, u2, hup, hu4, hu5⟩ := totalPagesUpdate_facts pd.totalPages tps cs
        split at h
        · -- zero items on the page
          split at h
          · simp at h
          · simp at h
          case h_3 res2 evs2 hrec =>
            obtain ⟨hp, hf⟩ := ih _ _ _ _ _ _ res2 evs2 hrec
            simp only [Option.some.injEq, Except.ok.injEq, Prod.mk.injEq] at h
            obtain ⟨hres, hevs⟩ := h
            subst hres hevs
            simp only [countSuccesses, countFailures] at hp hf u1 u2 ⊢
            simp [List.countP_cons, List.countP_append, Event.isSuccess,
              Event.isError]
            omega
        · -- a nonempty page of items
          split at h
          · simp at h
          · simp at h
          case h_3 res2 evs2 hrec =>
            obtain ⟨c1, c2, hc3, hc4⟩ := runItems_counts pf interval
              (pageItems pd).length (pageItems pd) 0
              ⟨tp, tf, 0, (totalPagesUpdate pd.totalPages tps cs).2.1, clock⟩
            obtain ⟨hp, hf⟩ := ih _ _ _ _ _ _ res2 evs2 hrec
            simp only [Option.some.injEq, Except.ok.injEq, Prod.mk.injEq] at h
            obtain ⟨hres, hevs⟩ := h
            subst hres hevs
            simp only [countSuccesses, countFailures] at hp hf u1 u2 c1 c2 ⊢
            simp [List.countP_cons, List.countP_append, Event.isSuccess,
              Event.isError]
            omega

/-- The page loop never touches the unreserved state fields: every
snapshot it builds spreads the previous one. -/
theorem pageLoop_ext {T R : Type}
    (fetchPage : Nat → State → Except JsVal (PageData T))
    (pf : T → Nat → State → Except JsVal R) (interval : Nat)
    (xs : List (String × String)) :
    ∀ (fuel cp tps tp tf : Nat) (cs : State) (clock : Nat)
      (res : BatchResult) (evs : List Event),
      pageLoop fetchPage pf interval fuel cp tps tp tf cs clock
        = some (.ok (res, evs)) →
      cs.ext = xs →
      res.state.ext = xs ∧ stateExtOk xs evs = true := by
  intro fuel
  induction fuel with
  | zero => intro cp tps tp tf cs clock res evs h; simp [pageLoop] at h
  | succ fuel ih =>
    intro cp tps tp tf cs clock res evs h hcs
    rw [pageLoop] at h
    split at h
    case isFalse hle =>
      simp only [Option.some.injEq, Except.ok.injEq, Prod.mk.injEq] at h
      obtain ⟨hres, hevs⟩ := h
      subst hres hevs
      simp [stateExtOk, hcs]
    case isTrue hle =>
      dsimp only at h
      split at h
      · simp at h
      case h_2 pd heq =>
        obtain ⟨u1, u2, hup, hu4, hu5⟩ := totalPagesUpdate_facts pd.totalPages tps cs
        split at h
        · -- zero items on the page
          split at h
          · simp at h
          · simp at h
          case h_3 res2 evs2 hrec =>
            obtain ⟨hr, he⟩ := ih _ _ _ _ _ _ res2 evs2 hrec (by simp [hup, hcs])
            simp only [Option.some.injEq, Except.ok.injEq, Prod.mk.injEq] at h
            obtain ⟨hres, hevs⟩ := h
            subst hres hevs
            rw [hcs] at hu4
            simp [stateExtOk_cons, stateExtOk_append, Event.stateOf, hcs, hup,
              hu4, he, hr]
        · -- a nonempty page of items
          obtain ⟨hie, hievs⟩ := runItems_ext pf interval
            (pageItems pd).length (pageItems pd) 0
            ⟨tp, tf, 0, (totalPagesUpdate pd.totalPages tps cs).2.1, clock⟩ xs
            (by simp [hup, hcs])
          split at h
          · simp at h
          · simp at h
          case h_3 res2 evs2 hrec =>
            obtain ⟨hr, he⟩ := ih _ _ _ _ _ _ res2 evs2 hrec (by simp [hie])
            simp only [Option.some.injEq, Except.ok.injEq, Prod.mk.injEq] at h
            obtain ⟨hres, hevs⟩ := h
            subst hres hevs
            rw [hcs] at hu4
            simp [stateExtOk_cons, stateExtOk_append, Event.stateOf, hcs, hup,
              hu4, hievs, hie, he, hr]

/-- The page loop only ever hands a wrapped Error instance to
onItemError. -/
theorem pageLoop_wrapped {T R : Type}
    (fetchPage : Nat → State → Except JsVal (PageData T))
    (pf : T → Nat → State → Except JsVal R) (interval : Nat) :
    ∀ (fuel cp tps tp tf : Nat) (cs : State) (clock : Nat)
      (res : BatchResult) (evs : List Event),
      pageLoop fetchPage pf interval fuel cp tps tp tf cs clock
        = some (.ok (res, evs)) →
      errorsWrapped evs = true := by
  intro fuel
  induction fuel with
  | zero => intro cp tps tp tf cs clock res evs h; simp [pageLoop] at h
  | succ fuel ih =>
    intro cp tps tp tf cs clock res evs h
    rw [pageLoop] at h
    split at h
    case isFalse hle =>
      simp only [Option.some.injEq, Except.ok.injEq, Prod.mk.injEq] at h
      obtain ⟨hres, hevs⟩ := h
      subst hres hevs
      simp [errorsWrapped]
    case isTrue hle =>
      dsimp only at h
      split at h
      · simp at h
      case h_2 pd heq =>
        obtain ⟨u1, u2, hup, hu4, hu5⟩ := totalPagesUpdate_facts pd.totalPages tps cs
        split at h
        · split at h
          · simp at h
          · simp at h
          case h_3 res2 evs2 hrec =>
            have he := ih _ _ _ _ _ _ res2 evs2 hrec
            simp only [Option.some.injEq, Except.ok.injEq, Prod.mk.injEq] at h
            obtain ⟨hres, hevs⟩ := h
            subst hres hevs
            simp [errorsWrapped_cons, errorsWrapped_append, hu5, he]
        · have hievs := runItems_wrapped pf interval
            (pageItems pd).length (pageItems pd) 0
            ⟨tp, tf, 0, (totalPagesUpdate pd.totalPages tps cs).2.1, clock⟩
          split at h
          · simp at h
          · simp at h
          case h_3 res2 evs2 hrec =>
            have he := ih _ _ _ _ _ _ res2 evs2 hrec
            simp only [Option.some.injEq, Except.ok.injEq, Prod.mk.injEq] at h
            obtain ⟨hres, hevs⟩ := h
            subst hres hevs
            simp [errorsWrapped_cons, errorsWrapped_append, hu5, hievs, he]

/-- With a process function that never rejects, a finished batch loop
records no onItemError invocation. -/
theorem batchLoop_allok {T R : Type} (pf : T → Nat → State → Except JsVal R)
    (items : List T) (batchSize interval totalBatches : Nat)
    (hok : ∀ t i s, (pf t i s).isOk = true) :
    ∀ (fuel i tp tf : Nat) (cs : State) (clock : Nat)
      (res : BatchResult) (evs : List Event),
      batchLoop pf items batchSize interval totalBatches fuel i tp tf cs clock
        = some (res, evs) →
      countFailures evs = 0 := by
  intro fuel
  induction fuel with
  | zero => intro i tp tf cs clock res evs h; simp [batchLoop] at h
  | succ fuel ih =>
    intro i tp tf cs clock res evs h
    rw [batchLoop] at h
    split at h
    case isTrue hlt =>
      dsimp only at h
      split at h
      · simp at h
      case h_2 res2 evs2 hrec =>
        have he := ih _ _ _ _ _ res2 evs2 hrec
        have hz := runItems_allok pf interval
          ((items.drop i).take batchSize).length ((items.drop i).take batchSize) 0
          ⟨tp, tf, 0, cs, clock⟩ hok
        simp only [Option.some.injEq, Prod.mk.injEq] at h
        obtain ⟨hres, hevs⟩ := h
        subst hres hevs
        simp only [countFailures, List.countP_cons, List.countP_append] at hz he ⊢
        rw [hz, he]
        simp [Event.isError]
    case isFalse hlt =>
      simp only [Option.some.injEq, Prod.mk.injEq] at h
      obtain ⟨hres, hevs⟩ := h
      subst hres hevs
      simp [countFailures]

/-- A fetchPage rejection on the first visited page propagates out of the
page loop unchanged: the loop returns the error itself and no result. -/
theorem pageLoop_fetchError {T R : Type}
    (fetchPage : Nat → State → Except JsVal (PageData T))
    (pf : T → Nat → State → Except JsVal R) (interval : Nat)
    (fuel cp tps tp tf : Nat) (cs : State) (clock : Nat) (e : JsVal)
    (hfuel : 1 ≤ fuel) (hle : cp ≤ tps)
    (hfp : fetchPage cp cs = .error e) :
    pageLoop fetchPage pf interval fuel cp tps tp tf cs clock
      = some (.error e) := by
  rcases fuel with _ | fuel
  · omega
  · rw [pageLoop]
    simp [hle, hfp]

/-- True when a trace (of one batch or page of item tasks) is empty or
opens with an item-completion event. -/
def headIsItemOrNil : List Event → Bool
  | [] => true
  | .itemSuccess _ _ :: _ => true
  | .itemError _ _ _ :: _ => true
  | _ => false

/-- A batch or page of item tasks always records an item-completion event
first, when it records anything at all. -/
theorem runItems_headIsItem {T R : Type} (pf : T → Nat → State → Except JsVal R)
    (interval listLen : Nat) (l : List T) (idx : Nat) (c : ItemCtx) :
    headIsItemOrNil (runItems pf interval listLen l idx c).2 = true := by
  rcases l with _ | ⟨x, rest⟩
  · simp [runItems, headIsItemOrNil]
  · simp only [runItems]
    unfold runItem
    rcases hpf : pf x idx c.currentState with e | r
    · simp [hpf, headIsItemOrNil]
    · simp only [hpf]
      split <;> simp [headIsItemOrNil]

/-- Checks the snapshot-emission cadence of an item-task trace against
the specified rule, given the seed totalProcessed count tp0: right after
an onItemSuccess carrying count tp, a stateUpdate with that count appears
exactly when the per-batch success counter tp - tp0 is a multiple of the
interval or equals the batch length; an onItemError is never followed
directly by a stateUpdate; no other event kinds occur. -/
def cadenceOk (interval listLen tp0 : Nat) : List Event → Bool
  | [] => true
  | .itemSuccess tp _ :: .stateUpdate st :: rest =>
      ((tp - tp0) % interval == 0 || tp - tp0 == listLen)
        && decide (st.totalProcessed = some tp)
        && cadenceOk interval listLen tp0 rest
  | .itemSuccess tp _ :: rest =>
      !((tp - tp0) % interval == 0 || tp - tp0 == listLen)
        && cadenceOk interval listLen tp0 rest
  | .itemError _ _ _ :: rest =>
      (match rest with
       | .stateUpdate _ :: _ => false
       | _ => true)
        && cadenceOk interval listLen tp0 rest
  | _ :: _ => false

/-- Generalized cadence invariant: starting from a context whose
totalProcessed exceeds the seed tp0 by exactly the per-batch success
counter b, the remaining item tasks produce a cadence-correct trace. -/
theorem runItems_cadence {T R : Type} (pf : T → Nat → State → Except JsVal R)
    (interval listLen tp0 : Nat) (l : List T) :
    ∀ (idx b tf : Nat) (cs : State) (clock : Nat),
      cadenceOk interval listLen tp0
        (runItems pf interval listLen l idx ⟨tp0 + b, tf, b, cs, clock⟩).2 = true := by
  induction l with
  | nil => intro idx b tf cs clock; simp [runItems, cadenceOk]
  | cons x rest ih =>
    intro idx b tf cs clock
    simp only [runItems]
    unfold runItem
    rcases hpf : pf x idx ((⟨tp0 + b, tf, b, cs, clock⟩ : ItemCtx).currentState) with e | r
    · -- failure: one itemError event, counters except totalFailed unchanged
      simp only
      have htail := ih (idx + 1) b (tf + 1) cs clock
      have hhead := runItems_headIsItem pf interval listLen rest (idx + 1)
        ⟨tp0 + b, tf + 1, b, cs, clock⟩
      rcases htr : (runItems pf interval listLen rest (idx + 1)
          ⟨tp0 + b, tf + 1, b, cs, clock⟩).2 with _ | ⟨ev, evrest⟩
      · simp [htr, cadenceOk]
      · rw [htr] at htail hhead
        cases ev <;> simp_all [cadenceOk, headIsItemOrNil]
    · -- success
      simp only
      rcases hcond : ((b + 1) % interval == 0 || b + 1 == listLen) with _ | _
      · -- no mid-batch emission
        simp only [hcond, Bool.false_eq_true, if_false]
        have harith : tp0 + b + 1 = tp0 + (b + 1) := by omega
        rw [harith]
        have htail := ih (idx + 1) (b + 1) tf cs clock
        have hhead := runItems_headIsItem pf interval listLen rest (idx + 1)
          ⟨tp0 + (b + 1), tf, b + 1, cs, clock⟩
        rcases htr : (runItems pf interval listLen rest (idx + 1)
            ⟨tp0 + (b + 1), tf, b + 1, cs, clock⟩).2 with _ | ⟨ev, evrest⟩
        · simp [htr, cadenceOk, hcond]
        · rw [htr] at htail hhead
          cases ev <;> simp_all [cadenceOk, headIsItemOrNil]
      · -- snapshot replacement and emission
        simp only [hcond, if_true]
        have harith : tp0 + b + 1 = tp0 + (b + 1) := by omega
        rw [harith]
        have htail := ih (idx + 1) (b + 1) tf
          { cs with
            totalProcessed := some (tp0 + (b + 1)),
            totalFailed := some tf,
            lastUpdated := some clock }
          (clock + 1)
        simp [cadenceOk, hcond, htail]

/-! Claim theorems. -/

/-- C5: during item execution within a batch or page, a snapshot
replacement plus onStateUpdate emission happens after a successful item
completion exactly when the per-batch success counter is a multiple of
stateUpdateInterval or equals the batch length; item failures never
trigger a mid-batch emission.  The shared item phase of both drivers
(runItems, always entered with a fresh per-batch counter and the batch
length as listLen) produces a cadence-correct trace for every process
function, interval, seed counters and snapshot. -/
theorem C5_emission_cadence {T R : Type} (pf : T → Nat → State → Except JsVal R)
    (interval : Nat) (l : List T) (tp0 tf : Nat) (cs : State) (clock : Nat) :
    cadenceOk interval l.length tp0
      (runItems pf interval l.length l 0 ⟨tp0, tf, 0, cs, clock⟩).2 = true := by
  have h := runItems_cadence pf interval l.length tp0 l 0 0 tf cs clock
  simpa using h

/-- C6: running processBatches on an empty items array executes zero
batches and returns immediately, with processed and failed copied from
initialState (via the 0-defaulting reads) and the state a copy of
initialState; no callback fires. -/
theorem C6_empty_items {T R : Type} (pf : T → Nat → State → Except JsVal R)
    (opts : BatchOptions) (fuel : Nat) (hfuel : 1 ≤ fuel) :
    processBatches fuel ([] : List T) pf opts
      = some (⟨jsOr opts.initialState.totalProcessed 0,
              jsOr opts.initialState.totalFailed 0,
              opts.initialState⟩, []) := by
  rcases fuel with _ | fuel
  · omega
  · unfold processBatches
    rw [batchLoop]
    simp

/-- Witness for C6 at the spec resumability example: initialState with
totalProcessed 5 and totalFailed 1 and zero new items yields processed 5
and failed 1 unchanged. -/
theorem C6_empty_items_witness :
    processBatches 1 ([] : List Unit) (fun _ _ _ => Except.ok ())
      { initialState := { totalProcessed := some 5, totalFailed := some 1 } }
      = some (⟨5, 1, { totalProcessed := some 5, totalFailed := some 1 }⟩, []) := by
  simpa [jsOr] using C6_empty_items (R := Unit) (fun _ _ _ => Except.ok ())
    { initialState := { totalProcessed := some 5, totalFailed := some 1 } } 1
    (by omega)

/-- The C8 scenario: fetchPage answers every call with totalPages 3 and a
page of 10 items, process always succeeds, empty initial state, default
initial page. -/
def c8run : Option (Except JsVal (BatchResult × List Event)) :=
  processPaginatedBatches 5
    (fun _ _ => Except.ok ({ items := some (List.replicate 10 ()),
                             totalPages := some 3 } : PageData Unit))
    (fun _ _ _ => Except.ok ()) {}

/-- C8: the paginated driver fetches exactly pages 1, 2 and 3, fires
onPageComplete exactly 3 times, returns a result with all 30 items
processed and none failed, and stops precisely when currentPage (4) has
passed totalPages (3). -/
theorem C8_paginated_termination :
    (pagedEvents c8run).filterMap pageStartPage = [1, 2, 3]
    ∧ (pagedEvents c8run).countP Event.isPageComplete = 3
    ∧ (pagedResult c8run).map
        (fun r => (r.processed, r.failed, r.state.currentPage, r.state.totalPages))
      = some (30, 0, some 4, some 3) := by
  refine ⟨by decide, by decide, by decide⟩

/-- C9: neither driver ever drops or rewrites an unreserved state field:
whenever a run finishes, the returned state and every snapshot handed to
a callback carry exactly the unreserved fields of initialState. -/
theorem C9_ext_passthrough :
    (∀ (T R : Type) (items : List T) (pf : T → Nat → State → Except JsVal R)
      (opts : BatchOptions) (fuel : Nat),
      extOk opts.initialState.ext (processBatches fuel items pf opts) = true)
    ∧ (∀ (T R : Type) (fetchPage : Nat → State → Except JsVal (PageData T))
      (pf : T → Nat → State → Except JsVal R)
      (opts : PaginatedBatchOptions) (fuel : Nat),
      pagedExtOk opts.initialState.ext
        (processPaginatedBatches fuel fetchPage pf opts) = true) := by
  constructor
  · intro T R items pf opts fuel
    unfold processBatches
    exact batchLoop_ext pf items opts.batchSize opts.stateUpdateInterval _
      opts.initialState.ext fuel 0 _ _ _ 0 rfl
  · intro T R fetchPage pf opts fuel
    unfold processPaginatedBatches
    rcases h : pageLoop fetchPage pf opts.stateUpdateInterval fuel
        (jsOr opts.initialState.currentPage opts.initialPage)
        (jsOr opts.initialState.totalPages 1)
        (jsOr opts.initialState.totalProcessed 0)
        (jsOr opts.initialState.totalFailed 0)
        { opts.initialState with
          currentPage := some (jsOr opts.initialState.currentPage opts.initialPage),
          totalPages := some (jsOr opts.initialState.totalPages 1),
          totalProcessed := some (jsOr opts.initialState.totalProcessed 0),
          totalFailed := some (jsOr opts.initialState.totalFailed 0) }
        0 with _ | x
    · simp [pagedExtOk]
    · rcases x with e | p
      · simp [pagedExtOk]
      · obtain ⟨res, evs⟩ := p
        obtain ⟨hr, he⟩ := pageLoop_ext fetchPage pf opts.stateUpdateInterval
          opts.initialState.ext fuel _ _ _ _ _ _ res evs h rfl
        simp [pagedExtOk, hr, he]

/-- C10: a rejection value that is not an Error instance is wrapped as
new Error(String(value)), so onItemError always receives an Error
instance: the wrapper always yields an Error instance, and every
onItemError invocation of either driver carries one. -/
theorem C10_error_wrapping :
    (∀ v : JsVal, (toError v).isErrObj = true)
    ∧ (∀ (T R : Type) (items : List T) (pf : T → Nat → State → Except JsVal R)
      (opts : BatchOptions) (fuel : Nat),
      wrappedOk (processBatches fuel items pf opts) = true)
    ∧ (∀ (T R : Type) (fetchPage : Nat → State → Except JsVal (PageData T))
      (pf : T → Nat → State → Except JsVal R)
      (opts : PaginatedBatchOptions) (fuel : Nat),
      pagedWrappedOk (processPaginatedBatches fuel fetchPage pf opts) = true) := by
  refine ⟨toError_isErrObj, ?_, ?_⟩
  · intro T R items pf opts fuel
    unfold processBatches
    exact batchLoop_wrapped pf items opts.batchSize opts.stateUpdateInterval _
      fuel 0 _ _ _ 0
  · intro T R fetchPage pf opts fuel
    unfold processPaginatedBatches
    rcases h : pageLoop fetchPage pf opts.stateUpdateInterval fuel
        (jsOr opts.initialState.currentPage opts.initialPage)
        (jsOr opts.initialState.totalPages 1)
        (jsOr opts.initialState.totalProcessed 0)
        (jsOr opts.initialState.totalFailed 0)
        { opts.initialState with
          currentPage := some (jsOr opts.initialState.currentPage opts.initialPage),
          totalPages := some (jsOr opts.initialState.totalPages 1),
          totalProcessed := some (jsOr opts.initialState.totalProcessed 0),
          totalFailed := some (jsOr opts.initialState.totalFailed 0) }
        0 with _ | x
    · simp [pagedWrappedOk]
    · rcases x with e | p
      · simp [pagedWrappedOk]
      · obtain ⟨res, evs⟩ := p
        have he := pageLoop_wrapped fetchPage pf opts.stateUpdateInterval
          fuel _ _ _ _ _ _ res evs h
        simp [pagedWrappedOk, he]

/-- With batchSize 0 the for-loop of processBatches never advances its
index: as long as some item remains, the batch loop consumes all fuel and
never returns. -/
theorem batchLoop_zero_stuck {T R : Type} (pf : T → Nat → State → Except JsVal R)
    (items : List T) (interval totalBatches : Nat) :
    ∀ (fuel i tp tf : Nat) (cs : State) (clock : Nat), i < items.length →
      batchLoop pf items 0 interval totalBatches fuel i tp tf cs clock = none := by
  intro fuel
  induction fuel with
  | zero => intro i tp tf cs clock hlt; simp [batchLoop]
  | succ fuel ih =>
    intro i tp tf cs clock hlt
    rw [batchLoop]
    rw [if_pos hlt]
    simp only [List.take_zero, runItems, Nat.add_zero]
    rw [ih i _ _ _ _ hlt]

/-- C1 counterexample: with the non-negative batchSize 0, one item, an
always-succeeding process function and an empty initialState,
processBatches never terminates, against the claim that every
non-negative batchSize yields a result. -/
theorem C1_batchSize_zero_diverges :
    processBatchesDiverges [()] (fun _ _ _ => Except.ok ()) { batchSize := 0 } := by
  intro fuel
  unfold processBatches
  exact batchLoop_zero_stuck (fun _ _ _ => Except.ok ()) [()] 5 _ fuel 0 _ _ _ 0
    (by simp)

/-- C1 amended: for positive batchSize (and positive concurrencyLimit,
as the p-limit gate requires), processBatches with an always-succeeding
process function and an empty initialState terminates within fuel
items.length + 1 and returns processed = itemCount and failed = 0. -/
theorem C1_allOk_processes_all {T R : Type} (items : List T)
    (pf : T → Nat → State → Except JsVal R) (opts : BatchOptions) (fuel : Nat)
    (hbs : 0 < opts.batchSize) (hcl : 0 < opts.concurrencyLimit)
    (hinit : opts.initialState = {})
    (hok : ∀ t i s, (pf t i s).isOk = true)
    (hfuel : items.length + 1 ≤ fuel) :
    (processBatches fuel items pf opts).isSome = true
    ∧ (runResult (processBatches fuel items pf opts)).map BatchResult.processed
        = some items.length
    ∧ (runResult (processBatches fuel items pf opts)).map BatchResult.failed
        = some 0 := by
  unfold processBatches
  rw [hinit]
  obtain ⟨res, evs, heq, hcount⟩ := batchLoop_total pf items opts.batchSize
    opts.stateUpdateInterval ((items.length + opts.batchSize - 1) / opts.batchSize)
    hbs fuel 0 (jsOr ({} : State).totalProcessed 0) (jsOr ({} : State).totalFailed 0)
    {} 0 (by omega)
  obtain ⟨hp, hf⟩ := batchLoop_counts pf items opts.batchSize
    opts.stateUpdateInterval _ fuel 0 _ _ _ 0 res evs heq
  have hz := batchLoop_allok pf items opts.batchSize opts.stateUpdateInterval _
    hok fuel 0 _ _ _ 0 res evs heq
  rw [heq]
  simp only [runResult, Option.map_some, Option.isSome_some, jsOr] at hp hf ⊢
  refine ⟨trivial, ?_, ?_⟩ <;> simp <;> omega

/-- Witness for the amended C1 at one item, batchSize and
concurrencyLimit defaults (20 and 10), always-ok process, empty
initialState. -/
theorem C1_allOk_processes_all_witness :
    (processBatches 2 [()] (fun _ _ _ => Except.ok ()) {}).isSome = true
    ∧ (runResult (processBatches 2 [()] (fun _ _ _ => Except.ok ()) {})).map
        BatchResult.processed = some 1
    ∧ (runResult (processBatches 2 [()] (fun _ _ _ => Except.ok ()) {})).map
        BatchResult.failed = some 0 := by
  have h := C1_allOk_processes_all (R := Unit) [()] (fun _ _ _ => Except.ok ()) {} 2
    (by decide) (by decide) rfl (fun _ _ _ => rfl) (by decide)
  simpa using h

/-- C2: the final counter sum of either driver equals the seeded sum plus
the number of item-completion events in the trace (the counters are only
ever incremented, one completion event per increment, so the sum also
never decreases during the run); in array mode the completion-event count
is exactly the item count. -/
theorem C2_sum_invariant :
    (∀ (T R : Type) (items : List T) (pf : T → Nat → State → Except JsVal R)
      (opts : BatchOptions) (fuel : Nat),
      0 < opts.batchSize → items.length + 1 ≤ fuel →
      (processBatches fuel items pf opts).isSome = true
      ∧ (runResult (processBatches fuel items pf opts)).map
          (fun r => r.processed + r.failed)
        = some (jsOr opts.initialState.totalProcessed 0
            + jsOr opts.initialState.totalFailed 0
            + completions (runEvents (processBatches fuel items pf opts)))
      ∧ completions (runEvents (processBatches fuel items pf opts)) = items.length)
    ∧ (∀ (T R : Type) (fetchPage : Nat → State → Except JsVal (PageData T))
      (pf : T → Nat → State → Except JsVal R) (opts : PaginatedBatchOptions)
      (fuel : Nat) (res : BatchResult) (evs : List Event),
      processPaginatedBatches fuel fetchPage pf opts = some (.ok (res, evs)) →
      res.processed + res.failed
        = jsOr opts.initialState.totalProcessed 0
          + jsOr opts.initialState.totalFailed 0 + completions evs) := by
  constructor
  · intro T R items pf opts fuel hbs hfuel
    unfold processBatches
    obtain ⟨res, evs, heq, hcount⟩ := batchLoop_total pf items opts.batchSize
      opts.stateUpdateInterval ((items.length + opts.batchSize - 1) / opts.batchSize)
      hbs fuel 0 (jsOr opts.initialState.totalProcessed 0)
      (jsOr opts.initialState.totalFailed 0) opts.initialState 0 (by omega)
    obtain ⟨hp, hf⟩ := batchLoop_counts pf items opts.batchSize
      opts.stateUpdateInterval _ fuel 0 _ _ _ 0 res evs heq
    rw [heq]
    simp only [runResult, runEvents, Option.map_some, Option.isSome_some,
      completions] at hp hf hcount ⊢
    refine ⟨trivial, by simp; omega, by omega⟩
  · intro T R fetchPage pf opts fuel res evs h
    unfold processPaginatedBatches at h
    obtain ⟨hp, hf⟩ := pageLoop_counts fetchPage pf opts.stateUpdateInterval
      fuel _ _ _ _ _ 0 res evs h
    simp only [completions, jsOr] at hp hf ⊢
    omega

/-- Process function of the C2 witness: the first item of a batch
succeeds, any later item rejects with a non-Error value. -/
def c2pf : Unit → Nat → State → Except JsVal Unit :=
  fun _ i _ => if i == 0 then Except.ok () else Except.error (JsVal.raw "x")

/-- Snapshot of the C2 witness paginated run after seeding. -/
def c2s0 : State :=
  { totalProcessed := some 0, totalFailed := some 0,
    currentPage := some 1, totalPages := some 1 }

/-- Snapshot of the C2 witness paginated run after its empty page. -/
def c2s1 : State :=
  { totalProcessed := some 0, totalFailed := some 0,
    currentPage := some 2, totalPages := some 1 }

/-- Witness for C2: a two-item batch with one success and one failure
sums to 2, and an empty-page paginated run satisfies the seeded-sum
equation with zero completions. -/
theorem C2_sum_invariant_witness :
    ((runResult (processBatches 3 [(), ()] c2pf {})).map
        (fun r => r.processed + r.failed) = some 2
      ∧ completions (runEvents (processBatches 3 [(), ()] c2pf {})) = 2)
    ∧ (0 : Nat) + 0
        = 0 + 0 + completions [Event.pageStart 1 1 c2s0, Event.stateUpdate c2s1] := by
  obtain ⟨h1, h2, h3⟩ := C2_sum_invariant.1 Unit Unit [(), ()] c2pf {} 3
    (by decide) (by decide)
  have h4 := C2_sum_invariant.2 Unit Unit (fun _ _ => Except.ok {})
    (fun _ _ _ => Except.ok ()) {} 2 ⟨0, 0, c2s1⟩
    [Event.pageStart 1 1 c2s0, Event.stateUpdate c2s1] (by rfl)
  refine ⟨⟨?_, h3⟩, by simpa [jsOr] using h4⟩
  rw [h3] at h2
  simpa [jsOr] using h2

/-- C3: a rejection from process for one item is recovered locally (the
array driver finishes for every process function, its failure count is
the seed plus one per onItemError invocation, and every item still
yields exactly one completion event), whereas a rejection from fetchPage
propagates out of the paginated driver unchanged, with no result. -/
theorem C3_failure_isolation :
    (∀ (T R : Type) (items : List T) (pf : T → Nat → State → Except JsVal R)
      (opts : BatchOptions) (fuel : Nat),
      0 < opts.batchSize → items.length + 1 ≤ fuel →
      (processBatches fuel items pf opts).isSome = true
      ∧ (runResult (processBatches fuel items pf opts)).map BatchResult.failed
        = some (jsOr opts.initialState.totalFailed 0
            + countFailures (runEvents (processBatches fuel items pf opts)))
      ∧ countSuccesses (runEvents (processBatches fuel items pf opts))
          + countFailures (runEvents (processBatches fuel items pf opts))
        = items.length)
    ∧ (∀ (T R : Type) (e : JsVal)
      (pf : T → Nat → State → Except JsVal R) (opts : PaginatedBatchOptions)
      (fuel : Nat),
      1 ≤ fuel →
      jsOr opts.initialState.currentPage opts.initialPage
        ≤ jsOr opts.initialState.totalPages 1 →
      processPaginatedBatches fuel (fun _ _ => Except.error e) pf opts
        = some (.error e)) := by
  constructor
  · intro T R items pf opts fuel hbs hfuel
    unfold processBatches
    obtain ⟨res, evs, heq, hcount⟩ := batchLoop_total pf items opts.batchSize
      opts.stateUpdateInterval ((items.length + opts.batchSize - 1) / opts.batchSize)
      hbs fuel 0 (jsOr opts.initialState.totalProcessed 0)
      (jsOr opts.initialState.totalFailed 0) opts.initialState 0 (by omega)
    obtain ⟨hp, hf⟩ := batchLoop_counts pf items opts.batchSize
      opts.stateUpdateInterval _ fuel 0 _ _ _ 0 res evs heq
    rw [heq]
    simp only [runResult, runEvents, Option.map_some, Option.isSome_some] at hp hf hcount ⊢
    exact ⟨trivial, by simp [hf], by omega⟩
  · intro T R e pf opts fuel hfuel hle
    unfold processPaginatedBatches
    exact pageLoop_fetchError (fun _ _ => Except.error e) pf
      opts.stateUpdateInterval fuel _ _ _ _ _ 0 e hfuel hle rfl

/-- Process function of the C3 witness: every item rejects with a
non-Error value. -/
def c3pf : Unit → Nat → State → Except JsVal Unit :=
  fun _ _ _ => Except.error (JsVal.raw "boom")

/-- Witness for C3: a one-item run whose only item fails still finishes
with failed = 1 and one completion event, and an always-rejecting
fetchPage propagates its error out of the paginated driver. -/
theorem C3_failure_isolation_witness :
    (processBatches 2 [()] c3pf {}).isSome = true
    ∧ (runResult (processBatches 2 [()] c3pf {})).map BatchResult.failed = some 1
    ∧ countSuccesses (runEvents (processBatches 2 [()] c3pf {}))
        + countFailures (runEvents (processBatches 2 [()] c3pf {})) = 1
    ∧ processPaginatedBatches 1 (fun _ _ => Except.error (JsVal.raw "network down"))
        (fun (_ : Unit) (_ : Nat) (_ : State) => Except.ok ()) {}
      = some (.error (JsVal.raw "network down")) := by
  obtain ⟨h1, h2, h3⟩ := C3_failure_isolation.1 Unit Unit [()] c3pf {} 2
    (by decide) (by decide)
  have h4 := C3_failure_isolation.2 Unit Unit (JsVal.raw "network down")
    (fun _ _ _ => Except.ok ()) {} 1 (by decide) (by decide)
  have hc : countFailures (runEvents (processBatches 2 [()] c3pf {})) = 1 := by decide
  rw [hc] at h2
  exact ⟨h1, by simpa [jsOr] using h2, h3, h4⟩

/-- The C4 counterexample scenario: the fetched page reports
totalPages 0 (differing from the current placeholder 1) and carries one
item. -/
def c4cexRun : Option (Except JsVal (BatchResult × List Event)) :=
  processPaginatedBatches 3
    (fun _ _ => Except.ok ({ items := some [()],
                             totalPages := some 0 } : PageData Unit))
    (fun _ _ _ => Except.ok ()) {}

/-- C4 counterexample: a fetched totalPages of 0 differs from the current
value 1, yet the driver neither updates totalPages nor emits any
onStateUpdate before item processing: the event right after pageStart is
already an item completion, and the returned state still carries
totalPages 1, not 0.  The guard pageData.totalPages && ... treats 0 as
falsy. -/
theorem C4_fetched_zero_no_update :
    isItemEventO ((pagedEvents c4cexRun).get? 1) = true
    ∧ (pagedResult c4cexRun).map (fun r => r.state.totalPages)
      = some (some 1) := by
  refine ⟨by decide, by decide⟩

/-- C4 amended: for every fetched page whose totalPages is present,
non-zero (truthy) and different from the driver's current totalPages,
the driver updates totalPages in currentState and emits onStateUpdate
immediately, right after onPageStart and before processing any of that
page's items; a fetched totalPages of 0 triggers no update and no
emission, and the page's items are processed against the unchanged
snapshot. -/
theorem C4_totalPages_update {T R : Type}
    (fetchPage : Nat → State → Except JsVal (PageData T))
    (pf : T → Nat → State → Except JsVal R) (interval : Nat)
    (fuel cp tps tp tf : Nat) (cs : State) (clock : Nat) :
    (∀ (n : Nat) (pd : PageData T) (res : BatchResult) (evs : List Event),
      cp ≤ tps → fetchPage cp cs = .ok pd →
      pd.totalPages = some n → n ≠ 0 → n ≠ tps →
      pageLoop fetchPage pf interval (fuel + 1) cp tps tp tf cs clock
        = some (.ok (res, evs)) →
      evs.take 2 = [Event.pageStart cp tps cs,
                    Event.stateUpdate { cs with totalPages := some n }])
    ∧ (∀ (pd : PageData T) (x : T) (xs : List T) (res : BatchResult)
        (evs : List Event),
      cp ≤ tps → fetchPage cp cs = .ok pd →
      pd.totalPages = some 0 → pageItems pd = x :: xs →
      pageLoop fetchPage pf interval (fuel + 1) cp tps tp tf cs clock
        = some (.ok (res, evs)) →
      evs.take 1 = [Event.pageStart cp tps cs]
      ∧ isItemEventO (evs.get? 1) = true
      ∧ (evs.get? 1).map Event.stateOf = some cs) := by
  constructor
  · intro n pd res evs hle hfp hn hn0 hnt hok
    rw [pageLoop] at hok
    rw [if_pos hle] at hok
    dsimp only at hok
    split at hok
    case h_1 e heq => rw [hfp] at heq; simp at heq
    case h_2 pd2 heq =>
      rw [hfp] at heq
      injection heq with heq2
      subst heq2
      have hcond : (n != 0 && n != tps) = true := by
        simp [hn0, hnt]
      simp only [hn, totalPagesUpdate, hcond, if_true] at hok
      split at hok
      · split at hok
        · simp at hok
        · simp at hok
        case h_3 res2 evs2 hrec =>
          simp only [Option.some.injEq, Except.ok.injEq, Prod.mk.injEq] at hok
          obtain ⟨hres, hevs⟩ := hok
          subst hevs
          simp
      · split at hok
        · simp at hok
        · simp at hok
        case h_3 res2 evs2 hrec =>
          simp only [Option.some.injEq, Except.ok.injEq, Prod.mk.injEq] at hok
          obtain ⟨hres, hevs⟩ := hok
          subst hevs
          simp
  · intro pd x xs res evs hle hfp hn hitems hok
    rw [pageLoop] at hok
    rw [if_pos hle] at hok
    dsimp only at hok
    split at hok
    case h_1 e heq => rw [hfp] at heq; simp at heq
    case h_2 pd2 heq =>
      rw [hfp] at heq
      injection heq with heq2
      subst heq2
      simp only [hn, totalPagesUpdate] at hok
      simp only [show ((0 : Nat) != 0 && (0 : Nat) != tps) = false by simp,
        Bool.false_eq_true, if_false] at hok
      rw [hitems] at hok
      simp only [List.length_cons] at hok
      split at hok
      case isTrue hz => simp at hz
      case isFalse hz =>
        simp only [runItems] at hok
        unfold runItem at hok
        rcases hpf : pf x 0 cs with e2 | r2
        · rw [hpf] at hok
          dsimp only at hok
          split at hok
          · simp at hok
          · simp at hok
          case h_3 res2 evs2 hrec =>
            simp only [Option.some.injEq, Except.ok.injEq, Prod.mk.injEq] at hok
            obtain ⟨hres, hevs⟩ := hok
            subst hevs
            simp [isItemEventO, Event.stateOf]
        · rw [hpf] at hok
          dsimp only at hok
          split at hok
          · simp at hok
          · simp at hok
          case h_3 res2 evs2 hrec =>
            simp only [Option.some.injEq, Except.ok.injEq, Prod.mk.injEq] at hok
            obtain ⟨hres, hevs⟩ := hok
            subst hevs
            split <;> simp [isItemEventO, Event.stateOf]

/-- Trace of the C4 witness run whose fetched totalPages 2 differs from
the current value 1. -/
def c4wA : List Event :=
  [Event.pageStart 1 1 {},
   Event.stateUpdate { totalPages := some 2 },
   Event.stateUpdate { currentPage := some 2, totalPages := some 2 },
   Event.pageStart 2 2 { currentPage := some 2, totalPages := some 2 },
   Event.stateUpdate { currentPage := some 3, totalPages := some 2 }]

/-- Trace of the C4 witness run whose fetched totalPages is 0. -/
def c4wB : List Event :=
  [Event.pageStart 1 1 {},
   Event.itemSuccess 1 {},
   Event.stateUpdate { totalProcessed := some 1, totalFailed := some 0,
                       lastUpdated := some 0 },
   Event.stateUpdate { totalProcessed := some 1, totalFailed := some 0,
                       lastUpdated := some 1, currentPage := some 2 },
   Event.pageComplete 1 1 1 1
     { totalProcessed := some 1, totalFailed := some 0,
       lastUpdated := some 1, currentPage := some 2 }]

/-- Witness for the amended C4 at two concrete one-page scenarios: a
fetched totalPages 2 is written and emitted right after pageStart, while
a fetched totalPages 0 leaves the trace with an item event in second
position against the unchanged snapshot. -/
theorem C4_totalPages_update_witness :
    c4wA.take 2 = [Event.pageStart 1 1 {},
                   Event.stateUpdate { totalPages := some 2 }]
    ∧ (c4wB.take 1 = [Event.pageStart 1 1 {}]
      ∧ isItemEventO (c4wB.get? 1) = true
      ∧ (c4wB.get? 1).map Event.stateOf = some {}) := by
  constructor
  · exact (C4_totalPages_update
      (fun _ _ => Except.ok ({ totalPages := some 2 } : PageData Unit))
      (fun _ _ _ => Except.ok ()) 5 3 1 1 0 0 {} 0).1 2
      { totalPages := some 2 }
      ⟨0, 0, { currentPage := some 3, totalPages := some 2 }⟩ c4wA
      (by decide) rfl rfl (by decide) (by decide) (by rfl)
  · exact (C4_totalPages_update
      (fun _ _ => Except.ok ({ items := some [()],
                               totalPages := some 0 } : PageData Unit))
      (fun _ _ _ => Except.ok ()) 5 1 1 1 0 0 {} 0).2
      { items := some [()], totalPages := some 0 } () []
      ⟨1, 0, { totalProcessed := some 1, totalFailed := some 0,
               lastUpdated := some 1, currentPage := some 2 }⟩ c4wB
      (by decide) rfl rfl rfl (by rfl)

end Batcher
